import Mathlib

/-!
Verification of the two e-commerce backends in this repository ("Rent Easy",
`server.cjs` of the Rent Easy deployment, and "Chat Point", `server.cjs` of the
Chat Point deployment) and the browser service worker (`sw.js`).

Each JavaScript request handler is shallowly embedded as a pure Lean function:
the document database is an explicit list of records threaded through the
handler, request bodies are structures whose optional/absent JS fields are
`Option`s (with the empty string modelling a falsy string field), and a
handler returns its HTTP response together with the updated store.
JavaScript numbers are modelled as `Int`/`ℚ`; `none` at a `ℚ` position
models `NaN`.
-/

/-- HTTP-level outcome of a request handler: success, or an error response
with the status code and message the code sends. -/
inductive Resp where
  | ok
  | err (status : ℕ) (msg : String)
deriving DecidableEq, Repr

/-- The HTTP status code of an error response. -/
def Resp.status : Resp → Option ℕ
  | .ok => none
  | .err s _ => some s

namespace JsStr

/-- Initial-segment test on character lists: `leadsWith p l` is true when `p`
is an initial segment of `l`.  This is the occurrence test JS
`String.prototype.split` performs at each position of the string. -/
def leadsWith : List Char → List Char → Bool
  | [], _ => true
  | _ :: _, [] => false
  | p :: ps, c :: cs => p == c && leadsWith ps cs

/-- Prepend a block of characters onto the first piece of a split result. -/
def consAll (a : List Char) : List (List Char) → List (List Char)
  | [] => [a]
  | h :: t => (a ++ h) :: t

/-- JS `String.prototype.split` with a non-empty separator `c₀ :: sep`, on
character lists: the string is cut at every leftmost, non-overlapping
occurrence of the separator. -/
def split (c₀ : Char) (sep : List Char) : List Char → List (List Char)
  | [] => [[]]
  | c :: rest =>
    if leadsWith (c₀ :: sep) (c :: rest) then
      [] :: split c₀ sep (rest.drop sep.length)
    else
      consAll [c] (split c₀ sep rest)
termination_by l => l.length
decreasing_by
  · simp only [List.length_drop, List.length_cons]; omega
  · simp only [List.length_cons]; omega

/-- Occurrence test: does `sep` occur as a contiguous block anywhere in `l`? -/
def occursIn (sep : List Char) : List Char → Bool
  | [] => leadsWith sep []
  | c :: rest => leadsWith sep (c :: rest) || occursIn sep rest

/-- Decimal digit character test (`'0'` to `'9'`, code points 48–57). -/
def isDigitCh (c : Char) : Bool := 48 ≤ c.toNat && c.toNat ≤ 57

/-- Numeric value of a single decimal digit character. -/
def digitVal (c : Char) : ℕ := c.toNat - 48

/-- Value of a run of decimal digit characters, most significant first. -/
def digitsVal : List Char → ℕ → ℕ
  | [], acc => acc
  | c :: rest, acc => digitsVal rest (acc * 10 + digitVal c)

/-- Value of a run of decimal digit characters read as a fraction after the
decimal point. -/
def fracVal : List Char → ℚ
  | [] => 0
  | c :: rest => (digitVal c + fracVal rest) / 10

/-- Longest leading run of decimal digit characters, with the remainder. -/
def takeDigits : List Char → List Char × List Char
  | [] => ([], [])
  | c :: rest =>
    if isDigitCh c then
      let p := takeDigits rest
      (c :: p.1, p.2)
    else ([], c :: rest)

/-- Leading-sign handling of JS `parseFloat`: a `'-'` or `'+'` is consumed,
and a `'-'` negates the result. -/
def stripSign : List Char → Bool × List Char
  | [] => (false, [])
  | c :: rest =>
    if c = '-' then (true, rest)
    else if c = '+' then (false, rest)
    else (false, c :: rest)

/-- Fraction digits of JS `parseFloat`: a leading `'.'` is followed by the
longest run of digits; anything else contributes no fraction digits. -/
def fracPart : List Char → List Char
  | [] => []
  | c :: rest => if c = '.' then (takeDigits rest).1 else []

/-- Model of JS `parseFloat` on character lists: an optional sign, a run of
integer digits, and an optional `'.'` followed by fraction digits are parsed;
any trailing characters are ignored (as `parseFloat` does).  `none` models
`NaN`, returned when no digits are found (also the result of
`parseFloat(undefined)`).  Exponents, `Infinity` and leading whitespace,
which never reach this code, are not modelled; numbers are exact rationals. -/
def parseFloat (l : List Char) : Option ℚ :=
  let s := stripSign l
  let ip := takeDigits s.2
  let fp := fracPart ip.2
  if ip.1 = [] ∧ fp = [] then none
  else some ((if s.1 then -1 else 1) * ((digitsVal ip.1 0 : ℚ) + fracVal fp))

/-- A plain decimal numeral: optional minus sign, integer digits, optional
fraction digits.  This is the textual form the specification means by a
coordinate "numeric value" embedded in a `"Lat: x, Lng: y"` string. -/
structure Decimal where
  neg : Bool
  intDs : List Char
  fracDs : List Char
deriving DecidableEq, Repr

/-- Well-formedness of a decimal numeral: a non-empty run of digits before
the point, digits after it. -/
def Decimal.wf (d : Decimal) : Bool :=
  !d.intDs.isEmpty && d.intDs.all isDigitCh && d.fracDs.all isDigitCh

/-- The character string of a decimal numeral. -/
def Decimal.render (d : Decimal) : List Char :=
  (if d.neg then ['-'] else []) ++ d.intDs ++
    (if d.fracDs.isEmpty then [] else '.' :: d.fracDs)

/-- The rational value of a decimal numeral. -/
def Decimal.val (d : Decimal) : ℚ :=
  (if d.neg then -1 else 1) * ((digitsVal d.intDs 0 : ℚ) + fracVal d.fracDs)

end JsStr

namespace ChatPoint

/-- `Owner` collection document (`ownerSchema`). -/
structure Owner where
  phone : String
  password : String
deriving DecidableEq, Repr

/-- `User` collection document (`userSchema`). -/
structure User where
  name : String
  phone : String
  password : String
deriving DecidableEq, Repr

/-- One element of an order's `items` array. -/
structure LineItem where
  name : String
  price : Int
  quantity : Int
deriving DecidableEq, Repr

/-- The persisted `address` subdocument, after the handler has replaced the
free-text `location` with parsed numeric coordinates.  `none` at a
coordinate models JS `NaN` (which mongoose refuses to cast, so a saved
order never carries it). -/
structure Address where
  name : String
  phone : String
  line1 : String
  line2 : String
  lat : Option ℚ
  lng : Option ℚ
deriving DecidableEq, Repr

/-- `Order` collection document (`orderSchema`).  `date` is an abstract
timestamp. -/
structure Order where
  userId : Option String
  userName : String
  userPhone : String
  shop : String
  items : List LineItem
  totalAmount : Int
  deliveryCharge : Int
  address : Address
  paymentMethod : String
  status : String
  date : ℕ
deriving DecidableEq, Repr

/-- Request body of `POST /api/order`.  Absent JS fields are `none`; an
absent or empty string field of a nested object is the empty string (both
are falsy under the `!x` checks the handler performs).  The client cart
`items` is a JS object, modelled as an insertion-ordered association list. -/
structure OrderReq where
  userId : Option String
  userName : String
  userPhone : String
  shop : Option String
  items : Option (List (String × Int))
  totalAmount : Int
  deliveryCharge : Int
  addrName : String
  addrPhone : String
  line1 : String
  line2 : String
  location : Option String
  paymentMethod : Option String
deriving Repr

/-- The coordinate extraction of `POST /api/order`:
`lat: parseFloat(address.location.split("Lat: ")[1].split(",")[0])` and
`lng: parseFloat(address.location.split("Lng: ")[1])`.  The outer `none`
models the `TypeError` thrown when `split("Lat: ")[1]` is `undefined`;
an inner `none` models a `NaN` coordinate (`parseFloat` of a digit-free
string, or of `undefined` when `"Lng: "` does not occur). -/
def parseLoc (loc : List Char) : Option (Option ℚ × Option ℚ) :=
  match (JsStr.split 'L' ['a', 't', ':', ' '] loc).get? 1 with
  | none => none
  | some s1 =>
    let latPiece := (JsStr.split ',' [] s1).headD []
    let lat := JsStr.parseFloat latPiece
    let lng : Option ℚ :=
      match (JsStr.split 'L' ['n', 'g', ':', ' '] loc).get? 1 with
      | none => none
      | some s2 => JsStr.parseFloat s2
    some (lat, lng)

/-- Handler of `POST /api/order`.  Field validation returns 400; a throwing
location parse or a mongoose save failure (empty required `address.name` /
`address.phone` string, or a `NaN` coordinate that `castNumber` rejects)
returns 500 and leaves the store unchanged; otherwise the built order is
appended to the store. -/
def placeOrder (req : OrderReq) (store : List Order) (now : ℕ) : Resp × List Order :=
  match req.items with
  | none => (.err 400 "Incomplete order data or location missing", store)
  | some its =>
    if req.userName = "" ∨ req.userPhone = "" ∨ its = [] ∨ req.line1 = "" ∨
        req.location = none then
      (.err 400 "Incomplete order data or location missing", store)
    else
      match req.location with
      | none => (.err 400 "Incomplete order data or location missing", store)
      | some loc =>
        match parseLoc loc.data with
        | none => (.err 500 "Failed to save order", store)
        | some (lat, lng) =>
          if req.addrName = "" ∨ req.addrPhone = "" ∨ lat = none ∨ lng = none then
            (.err 500 "Failed to save order", store)
          else
            let order : Order :=
              { userId := req.userId
                userName := req.userName
                userPhone := req.userPhone
                shop := req.shop.getD "Unknown Shop"
                items := its.map (fun p => { name := p.1, price := 100, quantity := p.2 })
                totalAmount := req.totalAmount
                deliveryCharge := req.deliveryCharge
                address :=
                  { name := req.addrName
                    phone := req.addrPhone
                    line1 := req.line1
                    line2 := req.line2
                    lat := lat
                    lng := lng }
                paymentMethod := req.paymentMethod.getD "cash"
                status := if req.paymentMethod = some "cash" then "pending" else "unpaid"
                date := now }
            (.ok, store ++ [order])

/-- Handler of `POST /api/owner/signup`. -/
def ownerSignup (phone password : String) (owners : List Owner) : Resp × List Owner :=
  if phone = "" ∨ password = "" then
    (.err 400 "Phone and password required", owners)
  else
    match owners.find? (fun o => o.phone == phone) with
    | some _ => (.err 400 "Owner already exists", owners)
    | none => (.ok, owners ++ [⟨phone, password⟩])

/-- Handler of `POST /api/owner/login`. -/
def ownerLogin (phone password : String) (owners : List Owner) : Resp :=
  match owners.find? (fun o => o.phone == phone) with
  | none => .err 404 "Owner not found"
  | some o => if o.password ≠ password then .err 401 "Incorrect password" else .ok

/-- Handler of `POST /api/user/signup`. -/
def userSignup (name phone password : String) (users : List User) : Resp × List User :=
  if name = "" ∨ phone = "" ∨ password = "" then
    (.err 400 "All fields required", users)
  else
    match users.find? (fun u => u.phone == phone) with
    | some _ => (.err 400 "User already exists", users)
    | none => (.ok, users ++ [⟨name, phone, password⟩])

/-- Handler of `POST /api/user/login`. -/
def userLogin (phone password : String) (users : List User) : Resp :=
  match users.find? (fun u => u.phone == phone) with
  | none => .err 404 "User not found"
  | some u => if u.password ≠ password then .err 401 "Incorrect password" else .ok

/-- `Order.find({ userId }).sort({ date: -1 })` of `GET /api/orders/:userId`:
the matching orders, ordered by descending date. -/
def ordersByUser (uid : String) (store : List Order) : List Order :=
  (store.filter (fun o => o.userId == some uid)).mergeSort
    (fun a b => decide (b.date ≤ a.date))

end ChatPoint

namespace RentEasy

/-- `User` collection document. -/
structure User where
  name : String
  phone : String
  password : String
deriving DecidableEq, Repr

/-- One value of the nested client cart: `cart[shop][item] = { qty, price }`. -/
structure CartEntry where
  qty : Int
  price : Int
deriving DecidableEq, Repr

/-- The client cart object `shop -> item -> { qty, price }`, modelled as an
insertion-ordered association list (JS object keys are unique and iterated
in insertion order by `for...in`). -/
abbrev Cart := List (String × List (String × CartEntry))

/-- One element of an order's `items` array. -/
structure Item where
  name : String
  price : Int
  quantity : Int
deriving DecidableEq, Repr

/-- `Order` collection document.  `id` models the Mongo `_id`, `date` is an
abstract timestamp. -/
structure Order where
  id : ℕ
  userId : String
  userName : String
  userPhone : String
  shop : Option String
  items : List Item
  totalAmount : Int
  deliveryCharge : Int
  addrName : String
  addrPhone : String
  line1 : String
  line2 : String
  paymentMethod : String
  status : String
  date : ℕ
deriving DecidableEq, Repr

/-- Request body of `POST /api/save-order`.  The empty string models an
absent (falsy) string field; fields with JS destructuring defaults are
`Option`s. -/
structure SaveOrderReq where
  userId : String
  name : String
  phone : String
  address1 : String
  address2 : String
  cart : Option Cart
  itemsTotal : Int
  deliveryCharge : Option Int
  grandTotal : Int
  paymentMode : Option String
deriving Repr

/-- Inner loop of `POST /api/save-order` over one shop's items: push a line
item and add `qty * price` to the running total for every entry with
`qty > 0`. -/
def flattenInner (shopItems : List (String × CartEntry)) (acc : List Item × Int) :
    List Item × Int :=
  shopItems.foldl
    (fun acc2 q =>
      if q.2.qty > 0 then
        (acc2.1 ++ [{ name := q.1, price := q.2.price, quantity := q.2.qty }],
          acc2.2 + q.2.qty * q.2.price)
      else acc2)
    acc

/-- The nested `for (const shop in cart) for (const item in cart[shop])`
loop of `POST /api/save-order`. -/
def flattenLoop (cart : Cart) : List Item × Int :=
  cart.foldl (fun acc p => flattenInner p.2 acc) ([], 0)

/-- Specification-side reading of one cart entry: the line item it should
contribute, or nothing when its quantity is not positive. -/
def lineOf (q : String × CartEntry) : Option Item :=
  if q.2.qty > 0 then some { name := q.1, price := q.2.price, quantity := q.2.qty }
  else none

/-- Specification-side reading of the flattened cart: one line item, in cart
order, for every cart entry with positive quantity, and nothing else. -/
def cartLineItems (cart : Cart) : List Item :=
  cart.flatMap fun p => p.2.filterMap lineOf

/-- Handler of `POST /api/save-order`.  The fresh Mongo `_id` is modelled by
the store length, `Object.keys(cart)[0]` by the head of the shop keys. -/
def saveOrder (req : SaveOrderReq) (store : List Order) (now : ℕ) : Resp × List Order :=
  if req.userId = "" ∨ req.name = "" ∨ req.phone = "" ∨ req.address1 = "" ∨
      req.cart = none then
    (.err 400 "Missing data", store)
  else
    match req.cart with
    | none => (.err 400 "Missing data", store)
    | some cart =>
      let items := (flattenLoop cart).1
      if items = [] then (.err 400 "Cart empty", store)
      else
        (.ok, store ++
          [{ id := store.length
             userId := req.userId
             userName := req.name
             userPhone := req.phone
             shop := (cart.map Prod.fst).head?
             items := items
             totalAmount := req.grandTotal
             deliveryCharge := req.deliveryCharge.getD 30
             addrName := req.name
             addrPhone := req.phone
             line1 := req.address1
             line2 := req.address2
             paymentMethod := req.paymentMode.getD "cash"
             status := "pending"
             date := now }])

/-- Handler of `POST /api/user/signup`. -/
def userSignup (name phone password : String) (users : List User) : Resp × List User :=
  if name = "" ∨ phone = "" ∨ password = "" then
    (.err 400 "All fields required", users)
  else
    match users.find? (fun u => u.phone == phone) with
    | some _ => (.err 400 "Phone already registered", users)
    | none => (.ok, users ++ [⟨name, phone, password⟩])

/-- Handler of `POST /api/user/login`: a missing account and a wrong
password share the single `!user || user.password !== password` check. -/
def userLogin (phone password : String) (users : List User) : Resp :=
  match users.find? (fun u => u.phone == phone) with
  | none => .err 401 "Invalid credentials"
  | some u => if u.password ≠ password then .err 401 "Invalid credentials" else .ok

/-- `Order.find({ status: "pending" }).sort({ date: -1 })` of
`GET /api/delivery-orders`. -/
def deliveryOrders (store : List Order) : List Order :=
  (store.filter (fun o => o.status == "pending")).mergeSort
    (fun a b => decide (b.date ≤ a.date))

/-- Handler of `GET /api/my-orders`: the `x-user-id` header is required,
then `Order.find({ userId }).sort({ date: -1 })`. -/
def myOrders (userIdHeader : Option String) (store : List Order) : Resp × List Order :=
  match userIdHeader with
  | none => (.err 400 "Missing x-user-id header", [])
  | some uid =>
    (.ok, (store.filter (fun o => o.userId == uid)).mergeSort
      (fun a b => decide (b.date ≤ a.date)))

/-- `findByIdAndUpdate(orderId, { status })`: replace the status of the
(unique) order with the given id. -/
def updateFirst (oid : ℕ) (st : String) : List Order → List Order
  | [] => []
  | o :: rest =>
    if o.id == oid then { o with status := st } :: rest
    else o :: updateFirst oid st rest

/-- Handler of `POST /api/update-order-status`. -/
def updateOrderStatus (orderId : Option ℕ) (status : Option String)
    (store : List Order) : Resp × List Order :=
  match orderId with
  | none => (.err 400 "Invalid data", store)
  | some oid =>
    match status with
    | none => (.err 400 "Invalid data", store)
    | some st =>
      if st = "delivered" ∨ st = "cancelled" then
        if (store.find? (fun o => o.id == oid)).isSome then
          (.ok, updateFirst oid st store)
        else (.err 404 "Order not found", store)
      else (.err 400 "Invalid data", store)

/-- A stored order that is already delivered; used to exercise
`updateOrderStatus` on a non-pending order. -/
def deliveredOrder : Order :=
  { id := 0
    userId := "u1"
    userName := "Asha"
    userPhone := "111"
    shop := some "S"
    items := [{ name := "chair", price := 50, quantity := 1 }]
    totalAmount := 80
    deliveryCharge := 30
    addrName := "Asha"
    addrPhone := "111"
    line1 := "street 1"
    line2 := ""
    paymentMethod := "cash"
    status := "delivered"
    date := 5 }

end RentEasy

namespace SW

/-- The cache name constant of `sw.js`. -/
def CACHE_NAME : String := "chatpoint-v9"

/-- The literal asset list of `sw.js`. -/
def urlsToCache : List String :=
  ["/", "/index.html", "/items.html", "/cart.html", "/login.html",
   "/orders.html", "/manifest.json", "/icon-192.png", "/icon-512.png"]

/-- `cache.put` for a single URL: replace the response stored under the URL,
or append a new entry.  The response type `α` is abstract. -/
def putEntry {α : Type} (u : String) (r : α) : List (String × α) → List (String × α)
  | [] => [(u, r)]
  | e :: rest => if e.1 = u then (u, r) :: rest else e :: putEntry u r rest

/-- The install handler body
`caches.open(CACHE_NAME).then(cache => cache.addAll(urlsToCache))`: fetch
every listed URL from the network and put it into the named cache. -/
def addAll {α : Type} (network : String → α) (c : List (String × α)) : List (String × α) :=
  urlsToCache.foldl (fun acc u => putEntry u (network u) acc) c

/-- The fetch handler body
`caches.match(e.request).then(response => response || fetch(e.request))`:
answer from the cache when a match exists, otherwise from the network. -/
def handleFetch {α : Type} (cache : List (String × α)) (network : String → α)
    (req : String) : α :=
  match cache.lookup req with
  | some r => r
  | none => network req

/-- The two events `sw.js` registers listeners for. -/
inductive Event where
  | install
  | fetchReq (req : String)

/-- One event-loop step of the service worker: `install` populates the named
cache, `fetch` answers cache-first and does not touch the cache. -/
def step {α : Type} (network : String → α) (s : List (String × α)) :
    Event → List (String × α) × Option α
  | .install => (addAll network s, none)
  | .fetchReq req => (s, some (handleFetch s network req))

/-- The cache contents after a sequence of events, starting from the fresh
empty cache that `caches.open` creates for the bumped `CACHE_NAME`. -/
def runSW {α : Type} (network : String → α) (events : List Event) : List (String × α) :=
  events.foldl (fun s e => (step network s e).1) []

end SW

namespace JsStr

theorem leadsWith_append (p b : List Char) : leadsWith p (p ++ b) = true := by
  induction p with
  | nil => rfl
  | cons c cs ih => simp [leadsWith, ih]

theorem leadsWith_cons_of_ne {c₀ c : Char} (sep l : List Char) (h : c ≠ c₀) :
    leadsWith (c₀ :: sep) (c :: l) = false := by
  simp [leadsWith]
  intro he
  exact absurd he.symm h

theorem consAll_ne_nil (a : List Char) (r : List (List Char)) : consAll a r ≠ [] := by
  cases r <;> simp [consAll]

theorem consAll_consAll (x : Char) (a : List Char) (r : List (List Char)) :
    consAll [x] (consAll a r) = consAll (x :: a) r := by
  cases r <;> simp [consAll]

theorem split_cons_pos {c₀ : Char} {sep : List Char} {c : Char} {rest : List Char}
    (h : leadsWith (c₀ :: sep) (c :: rest) = true) :
    split c₀ sep (c :: rest) = [] :: split c₀ sep (rest.drop sep.length) := by
  rw [split.eq_def]
  simp [h]

theorem split_cons_neg {c₀ : Char} {sep : List Char} {c : Char} {rest : List Char}
    (h : leadsWith (c₀ :: sep) (c :: rest) = false) :
    split c₀ sep (c :: rest) = consAll [c] (split c₀ sep rest) := by
  rw [split.eq_def]
  simp [h]

theorem split_ne_nil (c₀ : Char) (sep l : List Char) : split c₀ sep l ≠ [] := by
  cases l with
  | nil => rw [split.eq_def]; simp
  | cons c rest =>
    cases h : leadsWith (c₀ :: sep) (c :: rest) with
    | true => rw [split_cons_pos h]; simp
    | false => rw [split_cons_neg h]; exact consAll_ne_nil _ _

theorem consAll_nil_of_ne_nil {r : List (List Char)} (h : r ≠ []) : consAll [] r = r := by
  cases r with
  | nil => exact absurd rfl h
  | cons a t => simp [consAll]

/-- Splitting a string that starts with the separator cuts an empty first
piece and continues after the separator. -/
theorem split_sep_first (c₀ : Char) (sep b : List Char) :
    split c₀ sep ((c₀ :: sep) ++ b) = [] :: split c₀ sep b := by
  have h : leadsWith (c₀ :: sep) ((c₀ :: sep) ++ b) = true := leadsWith_append _ _
  rw [List.cons_append] at h ⊢
  rw [split_cons_pos h, List.drop_left]

/-- Walking over a block `a` that never contains the separator's first
character just accumulates `a` onto the first piece. -/
theorem split_skip_block (c₀ : Char) (sep : List Char) {a : List Char} (b : List Char)
    (h : ∀ c ∈ a, c ≠ c₀) :
    split c₀ sep (a ++ b) = consAll a (split c₀ sep b) := by
  induction a with
  | nil =>
    simp only [List.nil_append]
    exact (consAll_nil_of_ne_nil (split_ne_nil c₀ sep b)).symm
  | cons x a' ih =>
    have hx : x ≠ c₀ := h x (List.mem_cons_self x a')
    have hlw : leadsWith (c₀ :: sep) (x :: (a' ++ b)) = false :=
      leadsWith_cons_of_ne sep (a' ++ b) hx
    rw [List.cons_append, split_cons_neg hlw, ih (fun c hc => h c (List.mem_cons_of_mem _ hc)),
      consAll_consAll]

/-- A string that never contains the separator's first character is returned
as the single piece. -/
theorem split_all_ne (c₀ : Char) (sep : List Char) {l : List Char}
    (h : ∀ c ∈ l, c ≠ c₀) :
    split c₀ sep l = [l] := by
  have := split_skip_block c₀ sep [] h
  rw [List.append_nil] at this
  rw [this, split.eq_def]
  simp [consAll]

/-- A string without any occurrence of the separator is returned as the
single piece. -/
theorem split_of_not_occurs (c₀ : Char) (sep : List Char) {l : List Char}
    (h : occursIn (c₀ :: sep) l = false) :
    split c₀ sep l = [l] := by
  induction l with
  | nil => rw [split.eq_def]
  | cons c rest ih =>
    rw [occursIn] at h
    simp only [Bool.or_eq_false_iff] at h
    rw [split_cons_neg h.1, ih h.2]
    simp [consAll]

theorem takeDigits_append {ds : List Char} (rest : List Char)
    (hd : ∀ c ∈ ds, isDigitCh c = true)
    (hr : ∀ c r, rest = c :: r → isDigitCh c = false) :
    takeDigits (ds ++ rest) = (ds, rest) := by
  induction ds with
  | nil =>
    cases rest with
    | nil => rfl
    | cons c r => simp [takeDigits, hr c r rfl]
  | cons c ds' ih =>
    have hc : isDigitCh c = true := hd c (List.mem_cons_self c ds')
    simp only [List.cons_append, takeDigits, hc, if_pos, List.append_eq]
    rw [ih (fun c hc' => hd c (List.mem_cons_of_mem _ hc'))]

theorem takeDigits_all {ds : List Char} (hd : ∀ c ∈ ds, isDigitCh c = true) :
    takeDigits ds = (ds, []) := by
  have := takeDigits_append [] hd (fun c r h => by simp at h)
  rwa [List.append_nil] at this

/-- Calculational form of `parseFloat`. -/
theorem parseFloat_eq (l : List Char) :
    parseFloat l =
      if (takeDigits (stripSign l).2).1 = [] ∧ fracPart (takeDigits (stripSign l).2).2 = []
      then none
      else some ((if (stripSign l).1 then -1 else 1) *
        ((digitsVal (takeDigits (stripSign l).2).1 0 : ℚ) +
          fracVal (fracPart (takeDigits (stripSign l).2).2))) := rfl

theorem stripSign_digit {c : Char} (rest : List Char) (h : isDigitCh c = true) :
    stripSign (c :: rest) = (false, c :: rest) := by
  have hM : c ≠ '-' := by intro he; rw [he] at h; revert h; decide
  have hP : c ≠ '+' := by intro he; rw [he] at h; revert h; decide
  simp [stripSign, hM, hP]

/-- `parseFloat` recovers the value of a well-formed decimal numeral from its
rendered characters. -/
theorem parseFloat_render (d : Decimal) (h : d.wf = true) :
    parseFloat d.render = some d.val := by
  obtain ⟨⟨hne, hint⟩, hfrac⟩ := by
    simpa [Decimal.wf, Bool.and_eq_true, List.all_eq_true] using h
  obtain ⟨i, is, hi⟩ : ∃ i is, d.intDs = i :: is := by
    cases hds : d.intDs with
    | nil => exact absurd hds hne
    | cons i is => exact ⟨i, is, rfl⟩
  have hidig : isDigitCh i = true := hint i (by rw [hi]; exact List.mem_cons_self _ _)
  have hfp : ∀ c r, (if d.fracDs.isEmpty then ([] : List Char)
      else '.' :: d.fracDs) = c :: r → isDigitCh c = false := by
    intro c r hcr
    cases hf : d.fracDs with
    | nil => rw [hf] at hcr; simp at hcr
    | cons f fs =>
      rw [hf] at hcr
      simp only [List.isEmpty_cons, Bool.false_eq_true, if_false, List.cons.injEq] at hcr
      rw [← hcr.1]; decide
  have hbody : stripSign (d.intDs ++ (if d.fracDs.isEmpty then ([] : List Char)
      else '.' :: d.fracDs)) = (false, d.intDs ++ (if d.fracDs.isEmpty then ([] : List Char)
      else '.' :: d.fracDs)) := by
    rw [hi, List.cons_append, stripSign_digit _ hidig]
  have htd : takeDigits (d.intDs ++ (if d.fracDs.isEmpty then ([] : List Char)
      else '.' :: d.fracDs)) = (d.intDs, if d.fracDs.isEmpty then ([] : List Char)
      else '.' :: d.fracDs) := takeDigits_append _ hint hfp
  have hfp2 : fracPart (if d.fracDs.isEmpty then ([] : List Char)
      else '.' :: d.fracDs) = d.fracDs := by
    cases hf : d.fracDs with
    | nil => simp [fracPart]
    | cons f fs =>
      simp only [List.isEmpty_cons, Bool.false_eq_true, if_false, fracPart, if_pos rfl]
      exact congrArg Prod.fst (takeDigits_all (fun c hc => hfrac c (by rw [hf]; exact hc)))
  have hcond : ¬(d.intDs = [] ∧ d.fracDs = []) := fun hcn => hne hcn.1
  cases hneg : d.neg with
  | false =>
    have hr : d.render = d.intDs ++ (if d.fracDs.isEmpty then ([] : List Char)
        else '.' :: d.fracDs) := by
      simp [Decimal.render, hneg]
    rw [hr, parseFloat_eq]
    simp only [hbody, htd, hfp2]
    rw [if_neg hcond]
    simp [Decimal.val, hneg]
  | true =>
    have hr : d.render = '-' :: (d.intDs ++ (if d.fracDs.isEmpty then ([] : List Char)
        else '.' :: d.fracDs)) := by
      simp [Decimal.render, hneg]
    have hss : stripSign ('-' :: (d.intDs ++ (if d.fracDs.isEmpty then ([] : List Char)
        else '.' :: d.fracDs))) = (true, d.intDs ++ (if d.fracDs.isEmpty then ([] : List Char)
        else '.' :: d.fracDs)) := by
      simp [stripSign]
    rw [hr, parseFloat_eq]
    simp only [hss, htd, hfp2]
    rw [if_neg hcond]
    simp [Decimal.val, hneg]

/-- Every character of a rendered well-formed numeral is a sign, a point, or
a digit. -/
theorem render_chars (d : Decimal) (h : d.wf = true) :
    ∀ c ∈ d.render, c = '-' ∨ c = '.' ∨ isDigitCh c = true := by
  obtain ⟨⟨hne, hint⟩, hfrac⟩ := by
    simpa [Decimal.wf, Bool.and_eq_true, List.all_eq_true] using h
  intro c hc
  rw [Decimal.render] at hc
  simp only [List.mem_append] at hc
  rcases hc with (hc | hc) | hc
  · left
    cases hneg : d.neg with
    | true => rw [hneg] at hc; simpa using hc
    | false => rw [hneg] at hc; simp at hc
  · exact Or.inr (Or.inr (hint c hc))
  · cases hf : d.fracDs with
    | nil => rw [hf] at hc; simp at hc
    | cons f fs =>
      rw [hf] at hc
      simp only [List.isEmpty_cons, Bool.false_eq_true, if_false] at hc
      rcases List.mem_cons.mp hc with hc | hc
      · exact Or.inr (Or.inl hc)
      · exact Or.inr (Or.inr (hfrac c (by rw [hf]; exact hc)))

theorem all_ne_cons {c₀ x : Char} {l : List Char} (hx : x ≠ c₀) (hl : ∀ c ∈ l, c ≠ c₀) :
    ∀ c ∈ x :: l, c ≠ c₀ := by
  intro c hc
  rcases List.mem_cons.mp hc with h | h
  · rwa [h]
  · exact hl c h

theorem all_ne_append {c₀ : Char} {a b : List Char} (ha : ∀ c ∈ a, c ≠ c₀)
    (hb : ∀ c ∈ b, c ≠ c₀) : ∀ c ∈ a ++ b, c ≠ c₀ := by
  intro c hc
  rcases List.mem_append.mp hc with h | h
  · exact ha c h
  · exact hb c h

/-- `"Lat: x, Lng: y".split("Lat: ")[1]` is `"x, Lng: y"` when the character
`'L'` occurs in neither `x` nor `y`. -/
theorem split_lat_get1 (x y : List Char) (hx : ∀ c ∈ x, c ≠ 'L') (hy : ∀ c ∈ y, c ≠ 'L') :
    (split 'L' ['a', 't', ':', ' ']
        (['L', 'a', 't', ':', ' '] ++ x ++ [',', ' '] ++ ['L', 'n', 'g', ':', ' '] ++ y)).get? 1
      = some (x ++ [',', ' '] ++ ['L', 'n', 'g', ':', ' '] ++ y) := by
  have h1 : split 'L' ['a', 't', ':', ' '] (['L', 'n', 'g', ':', ' '] ++ y)
      = [['L', 'n', 'g', ':', ' '] ++ y] := by
    have hno : ∀ c ∈ (['n', 'g', ':', ' '] ++ y), c ≠ 'L' := all_ne_append (by decide) hy
    have hlw : leadsWith ('L' :: ['a', 't', ':', ' '])
        ('L' :: (['n', 'g', ':', ' '] ++ y)) = false := by
      simp [leadsWith]
    calc split 'L' ['a', 't', ':', ' '] (['L', 'n', 'g', ':', ' '] ++ y)
        = split 'L' ['a', 't', ':', ' '] ('L' :: (['n', 'g', ':', ' '] ++ y)) := by simp
      _ = consAll ['L'] (split 'L' ['a', 't', ':', ' '] (['n', 'g', ':', ' '] ++ y)) :=
          split_cons_neg hlw
      _ = consAll ['L'] [['n', 'g', ':', ' '] ++ y] := by rw [split_all_ne _ _ hno]
      _ = [['L', 'n', 'g', ':', ' '] ++ y] := by simp [consAll]
  have h2 : split 'L' ['a', 't', ':', ' ']
      (x ++ [',', ' '] ++ ['L', 'n', 'g', ':', ' '] ++ y)
      = consAll (x ++ [',', ' ']) (split 'L' ['a', 't', ':', ' ']
          (['L', 'n', 'g', ':', ' '] ++ y)) := by
    have := split_skip_block 'L' ['a', 't', ':', ' ']
      (['L', 'n', 'g', ':', ' '] ++ y) (all_ne_append hx (by decide : ∀ c ∈ [',', ' '], c ≠ 'L'))
    simpa [List.append_assoc] using this
  have h0 : (['L', 'a', 't', ':', ' '] ++ x ++ [',', ' '] ++ ['L', 'n', 'g', ':', ' '] ++ y)
      = ('L' :: ['a', 't', ':', ' ']) ++ (x ++ [',', ' '] ++ ['L', 'n', 'g', ':', ' '] ++ y) := by
    simp [List.append_assoc]
  rw [h0, split_sep_first, h2, h1]
  simp [consAll, List.append_assoc]

/-- `"x, Lng: y".split(",")[0]` is `x` when no comma occurs in `x`. -/
theorem split_comma_head (x r : List Char) (hx : ∀ c ∈ x, c ≠ ',') :
    (split ',' [] (x ++ ',' :: r)).headD [] = x := by
  have h1 : split ',' [] (',' :: r) = [] :: split ',' [] r := by
    have hlw : leadsWith (',' :: ([] : List Char)) (',' :: r) = true := by
      simp [leadsWith]
    rw [split_cons_pos hlw]
    simp
  have h2 : split ',' [] (x ++ ',' :: r) = consAll x (split ',' [] (',' :: r)) :=
    split_skip_block ',' [] (',' :: r) hx
  rw [h2, h1]
  simp [consAll]

/-- `"Lat: x, Lng: y".split("Lng: ")[1]` is `y` when the character `'L'`
occurs in neither `x` nor `y`. -/
theorem split_lng_get1 (x y : List Char) (hx : ∀ c ∈ x, c ≠ 'L') (hy : ∀ c ∈ y, c ≠ 'L') :
    (split 'L' ['n', 'g', ':', ' ']
        (['L', 'a', 't', ':', ' '] ++ x ++ [',', ' '] ++ ['L', 'n', 'g', ':', ' '] ++ y)).get? 1
      = some y := by
  have h1 : split 'L' ['n', 'g', ':', ' '] (['L', 'n', 'g', ':', ' '] ++ y)
      = [] :: split 'L' ['n', 'g', ':', ' '] y :=
    split_sep_first 'L' ['n', 'g', ':', ' '] y
  have h2 : split 'L' ['n', 'g', ':', ' ']
      ((['a', 't', ':', ' '] ++ x ++ [',', ' ']) ++ (['L', 'n', 'g', ':', ' '] ++ y))
      = consAll (['a', 't', ':', ' '] ++ x ++ [',', ' '])
          (split 'L' ['n', 'g', ':', ' '] (['L', 'n', 'g', ':', ' '] ++ y)) :=
    split_skip_block 'L' ['n', 'g', ':', ' '] (['L', 'n', 'g', ':', ' '] ++ y)
      (all_ne_append (all_ne_append (by decide) hx) (by decide))
  have hlw : leadsWith ('L' :: ['n', 'g', ':', ' '])
      ('L' :: ((['a', 't', ':', ' '] ++ x ++ [',', ' ']) ++ (['L', 'n', 'g', ':', ' '] ++ y)))
      = false := by
    simp [leadsWith]
  have h0 : (['L', 'a', 't', ':', ' '] ++ x ++ [',', ' '] ++ ['L', 'n', 'g', ':', ' '] ++ y)
      = 'L' :: ((['a', 't', ':', ' '] ++ x ++ [',', ' ']) ++ (['L', 'n', 'g', ':', ' '] ++ y)) := by
    simp [List.append_assoc]
  rw [h0, split_cons_neg hlw, h2, h1, split_all_ne _ _ hy]
  simp [consAll]

theorem render_ne_L (d : Decimal) (h : d.wf = true) : ∀ c ∈ d.render, c ≠ 'L' := by
  intro c hc he
  subst he
  rcases render_chars d h _ hc with h' | h' | h' <;> revert h' <;> decide

theorem render_ne_comma (d : Decimal) (h : d.wf = true) : ∀ c ∈ d.render, c ≠ ',' := by
  intro c hc he
  subst he
  rcases render_chars d h _ hc with h' | h' | h' <;> revert h' <;> decide

end JsStr

namespace RentEasy

theorem flattenInner_fst (l : List (String × CartEntry)) (acc : List Item × Int) :
    (flattenInner l acc).1 = acc.1 ++ l.filterMap lineOf := by
  induction l generalizing acc with
  | nil => simp [flattenInner]
  | cons q rest ih =>
    have step : flattenInner (q :: rest) acc = flattenInner rest
        (if q.2.qty > 0 then
          (acc.1 ++ [{ name := q.1, price := q.2.price, quantity := q.2.qty }],
            acc.2 + q.2.qty * q.2.price)
        else acc) := rfl
    by_cases h : q.2.qty > 0
    · rw [step, if_pos h, ih]
      simp [lineOf, h]
    · rw [step, if_neg h, ih]
      simp [lineOf, h]

theorem flattenLoop_fst (cart : Cart) : (flattenLoop cart).1 = cartLineItems cart := by
  suffices h : ∀ acc : List Item × Int,
      (cart.foldl (fun acc p => flattenInner p.2 acc) acc).1 = acc.1 ++ cartLineItems cart by
    simpa [flattenLoop] using h ([], 0)
  induction cart with
  | nil => intro acc; simp [cartLineItems]
  | cons p rest ih =>
    intro acc
    rw [List.foldl_cons, ih, flattenInner_fst]
    simp [cartLineItems, List.append_assoc]

theorem mem_cartLineItems (cart : Cart) (it : Item) :
    it ∈ cartLineItems cart ↔ ∃ shop inner item e,
      (shop, inner) ∈ cart ∧ (item, e) ∈ inner ∧ e.qty > 0 ∧
        it = { name := item, price := e.price, quantity := e.qty } := by
  constructor
  · intro h
    rw [cartLineItems, List.mem_flatMap] at h
    obtain ⟨p, hp, hin⟩ := h
    rw [List.mem_filterMap] at hin
    obtain ⟨q, hq, hlq⟩ := hin
    rw [lineOf] at hlq
    by_cases hqty : q.2.qty > 0
    · rw [if_pos hqty] at hlq
      exact ⟨p.1, p.2, q.1, q.2, by simpa using hp, by simpa using hq, hqty,
        (Option.some.inj hlq).symm⟩
    · rw [if_neg hqty] at hlq
      exact absurd hlq (by simp)
  · rintro ⟨shop, inner, item, e, hci, hin, hqty, hit⟩
    rw [cartLineItems, List.mem_flatMap]
    exact ⟨(shop, inner), hci,
      List.mem_filterMap.mpr ⟨(item, e), hin, by simp [lineOf, hqty, hit]⟩⟩

theorem cartLineItems_eq_nil_iff (cart : Cart) :
    cartLineItems cart = [] ↔
      ∀ shop inner item e, (shop, inner) ∈ cart → (item, e) ∈ inner → e.qty ≤ 0 := by
  rw [List.eq_nil_iff_forall_not_mem]
  constructor
  · intro h shop inner item e hci hin
    by_contra hq
    push_neg at hq
    exact h _ ((mem_cartLineItems cart _).mpr ⟨shop, inner, item, e, hci, hin, hq, rfl⟩)
  · intro h it hmem
    obtain ⟨shop, inner, item, e, hci, hin, hq, _⟩ := (mem_cartLineItems cart it).mp hmem
    exact absurd hq (not_lt.mpr (h shop inner item e hci hin))

theorem saveOrder_run (req : SaveOrderReq) (store : List Order) (now : ℕ) (cart : Cart)
    (hu : req.userId ≠ "") (hn : req.name ≠ "") (hp : req.phone ≠ "")
    (ha : req.address1 ≠ "") (hc : req.cart = some cart)
    (hne : cartLineItems cart ≠ []) :
    saveOrder req store now = (.ok, store ++
      [{ id := store.length
         userId := req.userId
         userName := req.name
         userPhone := req.phone
         shop := (cart.map Prod.fst).head?
         items := cartLineItems cart
         totalAmount := req.grandTotal
         deliveryCharge := req.deliveryCharge.getD 30
         addrName := req.name
         addrPhone := req.phone
         line1 := req.address1
         line2 := req.address2
         paymentMethod := req.paymentMode.getD "cash"
         status := "pending"
         date := now }]) := by
  have hvalid : ¬(req.userId = "" ∨ req.name = "" ∨ req.phone = "" ∨ req.address1 = "" ∨
      req.cart = none) := by
    simp [hu, hn, hp, ha, hc]
  unfold saveOrder
  rw [if_neg hvalid, hc]
  dsimp only
  rw [flattenLoop_fst, if_neg hne]

theorem saveOrder_cartEmpty (req : SaveOrderReq) (store : List Order) (now : ℕ)
    (cart : Cart) (hu : req.userId ≠ "") (hn : req.name ≠ "") (hp : req.phone ≠ "")
    (ha : req.address1 ≠ "") (hc : req.cart = some cart)
    (hnil : cartLineItems cart = []) :
    saveOrder req store now = (.err 400 "Cart empty", store) := by
  have hvalid : ¬(req.userId = "" ∨ req.name = "" ∨ req.phone = "" ∨ req.address1 = "" ∨
      req.cart = none) := by
    simp [hu, hn, hp, ha, hc]
  unfold saveOrder
  rw [if_neg hvalid, hc]
  dsimp only
  rw [flattenLoop_fst, if_pos hnil]

/-- C1: `POST /api/save-order` with a nested cart mapping flattens it into a
line-item list holding exactly one entry `{name: item, price, quantity: qty}`
for each cart entry with `qty > 0` and no other entries, and the request is
rejected with status 400 ("Cart empty") when no cart entry has `qty > 0`. -/
theorem renteasy_save_order_line_items (req : SaveOrderReq) (store : List Order)
    (now : ℕ) (cart : Cart) (hu : req.userId ≠ "") (hn : req.name ≠ "")
    (hp : req.phone ≠ "") (ha : req.address1 ≠ "") (hc : req.cart = some cart) :
    (cartLineItems cart ≠ [] →
      ∃ o : Order, saveOrder req store now = (.ok, store ++ [o]) ∧
        o.items = cartLineItems cart ∧
        ∀ it : Item, it ∈ o.items ↔ ∃ shop inner item e,
          (shop, inner) ∈ cart ∧ (item, e) ∈ inner ∧ e.qty > 0 ∧
            it = { name := item, price := e.price, quantity := e.qty }) ∧
    ((∀ shop inner item e, (shop, inner) ∈ cart → (item, e) ∈ inner → e.qty ≤ 0) →
      saveOrder req store now = (.err 400 "Cart empty", store)) := by
  constructor
  · intro hne
    refine ⟨_, saveOrder_run req store now cart hu hn hp ha hc hne, rfl, ?_⟩
    intro it
    exact mem_cartLineItems cart it
  · intro hall
    exact saveOrder_cartEmpty req store now cart hu hn hp ha hc
      ((cartLineItems_eq_nil_iff cart).mpr hall)

/-- C1 witness: a concrete cart with one positive-quantity entry and one
zero-quantity entry yields exactly the one expected line item. -/
theorem renteasy_save_order_line_items_witness :
    ∃ o : Order,
      saveOrder
        { userId := "u1", name := "Asha", phone := "111", address1 := "street 1",
          address2 := "", cart := some [("shopA", [("chair", ⟨2, 50⟩), ("table", ⟨0, 99⟩)])],
          itemsTotal := 100, deliveryCharge := none, grandTotal := 130,
          paymentMode := none } [] 7 = (.ok, [] ++ [o]) ∧
      o.items = [{ name := "chair", price := 50, quantity := 2 }] := by
  obtain ⟨h1, _⟩ := renteasy_save_order_line_items
    { userId := "u1", name := "Asha", phone := "111", address1 := "street 1",
      address2 := "", cart := some [("shopA", [("chair", ⟨2, 50⟩), ("table", ⟨0, 99⟩)])],
      itemsTotal := 100, deliveryCharge := none, grandTotal := 130,
      paymentMode := none } [] 7 [("shopA", [("chair", ⟨2, 50⟩), ("table", ⟨0, 99⟩)])]
    (by decide) (by decide) (by decide) (by decide) rfl
  obtain ⟨o, hrun, hitems, _⟩ := h1 (by decide)
  exact ⟨o, hrun, by rw [hitems]; decide⟩

/-- C9: the persisted Rent Easy order's `totalAmount` is the client-supplied
`grandTotal`, whatever the cart's line items sum to: changing only
`grandTotal` changes only the persisted `totalAmount`, so the
server-computed sum is neither persisted nor checked. -/
theorem renteasy_grandTotal_persisted (req : SaveOrderReq) (store : List Order)
    (now : ℕ) (cart : Cart) (hu : req.userId ≠ "") (hn : req.name ≠ "")
    (hp : req.phone ≠ "") (ha : req.address1 ≠ "") (hc : req.cart = some cart)
    (hne : cartLineItems cart ≠ []) :
    ∃ o : Order, saveOrder req store now = (.ok, store ++ [o]) ∧
      o.totalAmount = req.grandTotal ∧
      ∀ g : Int, saveOrder { req with grandTotal := g } store now
        = (.ok, store ++ [{ o with totalAmount := g }]) := by
  refine ⟨_, saveOrder_run req store now cart hu hn hp ha hc hne, rfl, ?_⟩
  intro g
  exact saveOrder_run { req with grandTotal := g } store now cart hu hn hp ha hc hne

/-- C9 witness: a cart summing to 100 persisted with a client grandTotal of
999. -/
theorem renteasy_grandTotal_persisted_witness :
    ∃ o : Order,
      saveOrder
        { userId := "u1", name := "Asha", phone := "111", address1 := "street 1",
          address2 := "", cart := some [("shopA", [("chair", ⟨2, 50⟩)])],
          itemsTotal := 100, deliveryCharge := none, grandTotal := 999,
          paymentMode := none } [] 7 = (.ok, [] ++ [o]) ∧
      o.totalAmount = 999 ∧
      (flattenLoop [("shopA", [("chair", ⟨2, 50⟩)])]).2 = 100 := by
  obtain ⟨o, hrun, htot, _⟩ := renteasy_grandTotal_persisted
    { userId := "u1", name := "Asha", phone := "111", address1 := "street 1",
      address2 := "", cart := some [("shopA", [("chair", ⟨2, 50⟩)])],
      itemsTotal := 100, deliveryCharge := none, grandTotal := 999,
      paymentMode := none } [] 7 [("shopA", [("chair", ⟨2, 50⟩)])]
    (by decide) (by decide) (by decide) (by decide) rfl (by decide)
  exact ⟨o, hrun, htot, by decide⟩

end RentEasy

namespace RentEasy

theorem mem_updateFirst (oid : ℕ) (st : String) :
    ∀ store : List Order, ∀ o ∈ updateFirst oid st store,
      o ∈ store ∨ ∃ o' ∈ store, o'.id = oid ∧ o = { o' with status := st }
  | [], o, h => by simp [updateFirst] at h
  | x :: rest, o, h => by
    rw [updateFirst] at h
    by_cases hx : (x.id == oid) = true
    · rw [if_pos hx] at h
      rcases List.mem_cons.mp h with h | h
      · exact Or.inr ⟨x, List.mem_cons_self x rest, by simpa using hx, h⟩
      · exact Or.inl (List.mem_cons_of_mem x h)
    · rw [if_neg hx] at h
      rcases List.mem_cons.mp h with h | h
      · exact Or.inl (h ▸ List.mem_cons_self x rest)
      · rcases mem_updateFirst oid st rest o h with h' | ⟨o', ho', hid, heq⟩
        · exact Or.inl (List.mem_cons_of_mem x h')
        · exact Or.inr ⟨o', List.mem_cons_of_mem x ho', hid, heq⟩

/-- C3 counterexample: `POST /api/update-order-status` applies a status
change to an order whose current status is "delivered", not "pending" —
the handler never inspects the current status. -/
theorem renteasy_update_status_counterexample :
    (updateOrderStatus (some 0) (some "cancelled") [deliveredOrder]).1 = .ok ∧
    (updateOrderStatus (some 0) (some "cancelled") [deliveredOrder]).2
      = [{ deliveredOrder with status := "cancelled" }] ∧
    deliveredOrder.status = "delivered" := by
  refine ⟨rfl, rfl, rfl⟩

/-- C3 (amended): every status change applied by
`POST /api/update-order-status` sets the matched order's status to
"delivered" or "cancelled" regardless of its previous status (which need not
be "pending"); a request with any other target status, or without an order
id, is rejected with 400 and leaves every order unchanged. -/
theorem renteasy_update_status_amended (oid : ℕ) (st : String) (stOpt : Option String)
    (store : List Order) :
    (st ≠ "delivered" → st ≠ "cancelled" →
      updateOrderStatus (some oid) (some st) store = (.err 400 "Invalid data", store)) ∧
    (updateOrderStatus none stOpt store = (.err 400 "Invalid data", store)) ∧
    (updateOrderStatus (some oid) none store = (.err 400 "Invalid data", store)) ∧
    (∀ o, o ∈ (updateOrderStatus (some oid) (some st) store).2 →
      o ∈ store ∨ ((st = "delivered" ∨ st = "cancelled") ∧ o.status = st ∧
        ∃ o' ∈ store, o'.id = oid ∧ o = { o' with status := st })) := by
  refine ⟨?_, rfl, rfl, ?_⟩
  · intro h1 h2
    unfold updateOrderStatus
    dsimp only
    rw [if_neg (by simp [h1, h2])]
  · by_cases hv : st = "delivered" ∨ st = "cancelled"
    · by_cases hf : (store.find? (fun o => o.id == oid)).isSome
      · have hrun : updateOrderStatus (some oid) (some st) store
            = (.ok, updateFirst oid st store) := by
          unfold updateOrderStatus
          dsimp only
          rw [if_pos hv, if_pos hf]
        rw [hrun]
        intro o ho
        rcases mem_updateFirst oid st store o ho with h | ⟨o', ho', hid, heq⟩
        · exact Or.inl h
        · exact Or.inr ⟨hv, by rw [heq], ⟨o', ho', hid, heq⟩⟩
      · have hrun : updateOrderStatus (some oid) (some st) store
            = (.err 404 "Order not found", store) := by
          unfold updateOrderStatus
          dsimp only
          rw [if_pos hv, if_neg hf]
        rw [hrun]
        exact fun o ho => Or.inl ho
    · have hrun : updateOrderStatus (some oid) (some st) store
          = (.err 400 "Invalid data", store) := by
        unfold updateOrderStatus
        dsimp only
        rw [if_neg hv]
      rw [hrun]
      exact fun o ho => Or.inl ho

/-- C3 witness: a target status outside delivered/cancelled is rejected with
400 and the store is untouched. -/
theorem renteasy_update_status_amended_witness :
    updateOrderStatus (some 0) (some "paid") [deliveredOrder]
      = (.err 400 "Invalid data", [deliveredOrder]) :=
  (renteasy_update_status_amended 0 "paid" none [deliveredOrder]).1
    (by decide) (by decide)

end RentEasy

/-- C4 counterexample: on the Rent Easy backend, a login whose phone has no
account answers status 401, not 404. -/
theorem login_unknown_phone_counterexample :
    (RentEasy.userLogin "9999" "pw" []).status = some 401 ∧
    (RentEasy.userLogin "9999" "pw" []).status ≠ some 404 := by
  refine ⟨rfl, by decide⟩

/-- C4 (amended): every login compares the password in plaintext against the
stored one.  On the Chat Point backend an unknown phone answers 404 and a
wrong password 401; the Rent Easy backend answers 401 in both cases; success
otherwise. -/
theorem login_status_classification (phone password : String)
    (owners : List ChatPoint.Owner) (cusers : List ChatPoint.User)
    (rusers : List RentEasy.User) :
    ((owners.find? (fun a => a.phone == phone) = none →
        ChatPoint.ownerLogin phone password owners = .err 404 "Owner not found") ∧
      (∀ a, owners.find? (fun a => a.phone == phone) = some a →
        (a.password ≠ password →
          ChatPoint.ownerLogin phone password owners = .err 401 "Incorrect password") ∧
        (a.password = password → ChatPoint.ownerLogin phone password owners = .ok))) ∧
    ((cusers.find? (fun a => a.phone == phone) = none →
        ChatPoint.userLogin phone password cusers = .err 404 "User not found") ∧
      (∀ a, cusers.find? (fun a => a.phone == phone) = some a →
        (a.password ≠ password →
          ChatPoint.userLogin phone password cusers = .err 401 "Incorrect password") ∧
        (a.password = password → ChatPoint.userLogin phone password cusers = .ok))) ∧
    ((rusers.find? (fun a => a.phone == phone) = none →
        RentEasy.userLogin phone password rusers = .err 401 "Invalid credentials") ∧
      (∀ a, rusers.find? (fun a => a.phone == phone) = some a →
        (a.password ≠ password →
          RentEasy.userLogin phone password rusers = .err 401 "Invalid credentials") ∧
        (a.password = password → RentEasy.userLogin phone password rusers = .ok))) := by
  refine ⟨⟨?_, ?_⟩, ⟨?_, ?_⟩, ⟨?_, ?_⟩⟩
  · intro h
    unfold ChatPoint.ownerLogin
    rw [h]
  · intro a h
    unfold ChatPoint.ownerLogin
    rw [h]
    dsimp only
    constructor
    · intro hne
      rw [if_pos hne]
    · intro heq
      rw [if_neg (by simp [heq])]
  · intro h
    unfold ChatPoint.userLogin
    rw [h]
  · intro a h
    unfold ChatPoint.userLogin
    rw [h]
    dsimp only
    constructor
    · intro hne
      rw [if_pos hne]
    · intro heq
      rw [if_neg (by simp [heq])]
  · intro h
    unfold RentEasy.userLogin
    rw [h]
  · intro a h
    unfold RentEasy.userLogin
    rw [h]
    dsimp only
    constructor
    · intro hne
      rw [if_pos hne]
    · intro heq
      rw [if_neg (by simp [heq])]

/-- C4 witness: with empty stores, an unknown phone answers 404 on Chat Point
and 401 on Rent Easy. -/
theorem login_status_classification_witness :
    ChatPoint.ownerLogin "1" "pw" [] = .err 404 "Owner not found" ∧
    RentEasy.userLogin "1" "pw" [] = .err 401 "Invalid credentials" :=
  ⟨(login_status_classification "1" "pw" [] [] []).1.1 rfl,
   (login_status_classification "1" "pw" [] [] []).2.2.1 rfl⟩

/-- C5: phone uniqueness is preserved by every signup endpoint (Chat Point
owner and user, Rent Easy user): when an account with the same phone already
exists the response status is 400 and no account is created; when none
exists and all required fields are present, exactly one new account with
that phone is appended. -/
theorem signup_phone_unique (name phone password : String)
    (owners : List ChatPoint.Owner) (cusers : List ChatPoint.User)
    (rusers : List RentEasy.User) :
    (((∃ a ∈ owners, a.phone = phone) →
        (ChatPoint.ownerSignup phone password owners).1.status = some 400 ∧
        (ChatPoint.ownerSignup phone password owners).2 = owners) ∧
      ((∀ a ∈ owners, a.phone ≠ phone) → phone ≠ "" → password ≠ "" →
        ChatPoint.ownerSignup phone password owners
          = (.ok, owners ++ [{ phone := phone, password := password }]) ∧
        ((ChatPoint.ownerSignup phone password owners).2.countP
          (fun a => a.phone == phone)) = 1)) ∧
    (((∃ a ∈ cusers, a.phone = phone) →
        (ChatPoint.userSignup name phone password cusers).1.status = some 400 ∧
        (ChatPoint.userSignup name phone password cusers).2 = cusers) ∧
      ((∀ a ∈ cusers, a.phone ≠ phone) → name ≠ "" → phone ≠ "" → password ≠ "" →
        ChatPoint.userSignup name phone password cusers
          = (.ok, cusers ++ [{ name := name, phone := phone, password := password }]) ∧
        ((ChatPoint.userSignup name phone password cusers).2.countP
          (fun a => a.phone == phone)) = 1)) ∧
    (((∃ a ∈ rusers, a.phone = phone) →
        (RentEasy.userSignup name phone password rusers).1.status = some 400 ∧
        (RentEasy.userSignup name phone password rusers).2 = rusers) ∧
      ((∀ a ∈ rusers, a.phone ≠ phone) → name ≠ "" → phone ≠ "" → password ≠ "" →
        RentEasy.userSignup name phone password rusers
          = (.ok, rusers ++ [{ name := name, phone := phone, password := password }]) ∧
        ((RentEasy.userSignup name phone password rusers).2.countP
          (fun a => a.phone == phone)) = 1)) := by
  refine ⟨⟨?_, ?_⟩, ⟨?_, ?_⟩, ⟨?_, ?_⟩⟩
  · rintro ⟨a, ha, hap⟩
    unfold ChatPoint.ownerSignup
    by_cases hpres : phone = "" ∨ password = ""
    · rw [if_pos hpres]
      exact ⟨rfl, rfl⟩
    · rw [if_neg hpres]
      have hsome : (owners.find? (fun o => o.phone == phone)).isSome = true :=
        List.find?_isSome.mpr ⟨a, ha, by rw [hap]; simp⟩
      obtain ⟨b, hb⟩ := Option.isSome_iff_exists.mp hsome
      rw [hb]
      exact ⟨rfl, rfl⟩
  · intro hnone hph hpw
    have hfind : owners.find? (fun a => a.phone == phone) = none :=
      List.find?_eq_none.mpr (fun a ha => by simpa using hnone a ha)
    have hrun : ChatPoint.ownerSignup phone password owners
        = (.ok, owners ++ [{ phone := phone, password := password }]) := by
      unfold ChatPoint.ownerSignup
      rw [if_neg (by simp [hph, hpw]), hfind]
    refine ⟨hrun, ?_⟩
    rw [hrun]
    rw [List.countP_append, List.countP_eq_zero.mpr (fun a ha => by simpa using hnone a ha)]
    simp [List.countP_cons]
  · rintro ⟨a, ha, hap⟩
    unfold ChatPoint.userSignup
    by_cases hpres : name = "" ∨ phone = "" ∨ password = ""
    · rw [if_pos hpres]
      exact ⟨rfl, rfl⟩
    · rw [if_neg hpres]
      have hsome : (cusers.find? (fun u => u.phone == phone)).isSome = true :=
        List.find?_isSome.mpr ⟨a, ha, by rw [hap]; simp⟩
      obtain ⟨b, hb⟩ := Option.isSome_iff_exists.mp hsome
      rw [hb]
      exact ⟨rfl, rfl⟩
  · intro hnone hnm hph hpw
    have hfind : cusers.find? (fun a => a.phone == phone) = none :=
      List.find?_eq_none.mpr (fun a ha => by simpa using hnone a ha)
    have hrun : ChatPoint.userSignup name phone password cusers
        = (.ok, cusers ++ [{ name := name, phone := phone, password := password }]) := by
      unfold ChatPoint.userSignup
      rw [if_neg (by simp [hnm, hph, hpw]), hfind]
    refine ⟨hrun, ?_⟩
    rw [hrun]
    rw [List.countP_append, List.countP_eq_zero.mpr (fun a ha => by simpa using hnone a ha)]
    simp [List.countP_cons]
  · rintro ⟨a, ha, hap⟩
    unfold RentEasy.userSignup
    by_cases hpres : name = "" ∨ phone = "" ∨ password = ""
    · rw [if_pos hpres]
      exact ⟨rfl, rfl⟩
    · rw [if_neg hpres]
      have hsome : (rusers.find? (fun u => u.phone == phone)).isSome = true :=
        List.find?_isSome.mpr ⟨a, ha, by rw [hap]; simp⟩
      obtain ⟨b, hb⟩ := Option.isSome_iff_exists.mp hsome
      rw [hb]
      exact ⟨rfl, rfl⟩
  · intro hnone hnm hph hpw
    have hfind : rusers.find? (fun a => a.phone == phone) = none :=
      List.find?_eq_none.mpr (fun a ha => by simpa using hnone a ha)
    have hrun : RentEasy.userSignup name phone password rusers
        = (.ok, rusers ++ [{ name := name, phone := phone, password := password }]) := by
      unfold RentEasy.userSignup
      rw [if_neg (by simp [hnm, hph, hpw]), hfind]
    refine ⟨hrun, ?_⟩
    rw [hrun]
    rw [List.countP_append, List.countP_eq_zero.mpr (fun a ha => by simpa using hnone a ha)]
    simp [List.countP_cons]

/-- C5 witness: a fresh phone is registered exactly once; a duplicate phone
leaves the Rent Easy user store unchanged. -/
theorem signup_phone_unique_witness :
    ChatPoint.ownerSignup "77" "pw" []
      = (.ok, [{ phone := "77", password := "pw" }]) ∧
    (RentEasy.userSignup "Asha" "77" "pw" [⟨"Banu", "77", "x"⟩]).2
      = [(⟨"Banu", "77", "x"⟩ : RentEasy.User)] :=
  ⟨((signup_phone_unique "Asha" "77" "pw" [] [] [⟨"Banu", "77", "x"⟩]).1.2
      (by simp) (by decide) (by decide)).1,
   ((signup_phone_unique "Asha" "77" "pw" [] [] [⟨"Banu", "77", "x"⟩]).2.2.1
      ⟨⟨"Banu", "77", "x"⟩, by simp, rfl⟩).2⟩

theorem dateDesc_trans {α : Type} (f : α → ℕ) :
    ∀ a b c : α, decide (f b ≤ f a) = true → decide (f c ≤ f b) = true →
      decide (f c ≤ f a) = true := by
  intro a b c h1 h2
  simp only [decide_eq_true_eq] at h1 h2 ⊢
  omega

theorem dateDesc_total {α : Type} (f : α → ℕ) :
    ∀ a b : α, (decide (f b ≤ f a) || decide (f a ≤ f b)) = true := by
  intro a b
  rcases Nat.le_total (f b) (f a) with h | h <;> simp [h]

theorem pairwise_dateDesc {α : Type} (f : α → ℕ) (l : List α) :
    List.Pairwise (fun a b => f b ≤ f a)
      (l.mergeSort (fun a b => decide (f b ≤ f a))) := by
  have h := @List.sorted_mergeSort α (fun a b => decide (f b ≤ f a))
    (dateDesc_trans f) (dateDesc_total f) l
  exact h.imp (fun {a b} hab => by simpa using hab)

/-- C6: each retrieval endpoint returns exactly the matching stored orders,
sorted by date descending: the by-user endpoints (Chat Point
`GET /api/orders/:userId` and Rent Easy `GET /api/my-orders`, the latter
answering 400 without its user header) return exactly the stored orders with
the requested user id, and `GET /api/delivery-orders` returns exactly the
stored orders whose status is "pending". -/
theorem order_retrieval_exact (uid ruid : String) (cstore : List ChatPoint.Order)
    (rstore : List RentEasy.Order) :
    ((ChatPoint.ordersByUser uid cstore).Perm
        (cstore.filter (fun o => o.userId == some uid)) ∧
      (∀ o, o ∈ ChatPoint.ordersByUser uid cstore ↔ o ∈ cstore ∧ o.userId = some uid) ∧
      List.Pairwise (fun a b => b.date ≤ a.date) (ChatPoint.ordersByUser uid cstore)) ∧
    ((RentEasy.deliveryOrders rstore).Perm
        (rstore.filter (fun o => o.status == "pending")) ∧
      (∀ o, o ∈ RentEasy.deliveryOrders rstore ↔ o ∈ rstore ∧ o.status = "pending") ∧
      List.Pairwise (fun a b => b.date ≤ a.date) (RentEasy.deliveryOrders rstore)) ∧
    (RentEasy.myOrders none rstore = (.err 400 "Missing x-user-id header", []) ∧
      (RentEasy.myOrders (some ruid) rstore).1 = .ok ∧
      (RentEasy.myOrders (some ruid) rstore).2.Perm
        (rstore.filter (fun o => o.userId == ruid)) ∧
      (∀ o, o ∈ (RentEasy.myOrders (some ruid) rstore).2 ↔ o ∈ rstore ∧ o.userId = ruid) ∧
      List.Pairwise (fun a b => b.date ≤ a.date) ((RentEasy.myOrders (some ruid) rstore).2)) := by
  refine ⟨⟨?_, ?_, ?_⟩, ⟨?_, ?_, ?_⟩, ?_, ?_, ?_, ?_, ?_⟩
  · exact List.mergeSort_perm _ _
  · intro o
    rw [ChatPoint.ordersByUser, List.Perm.mem_iff (List.mergeSort_perm _ _), List.mem_filter]
    simp
  · exact pairwise_dateDesc (fun o : ChatPoint.Order => o.date) _
  · exact List.mergeSort_perm _ _
  · intro o
    rw [RentEasy.deliveryOrders, List.Perm.mem_iff (List.mergeSort_perm _ _), List.mem_filter]
    simp
  · exact pairwise_dateDesc (fun o : RentEasy.Order => o.date) _
  · rfl
  · rfl
  · exact List.mergeSort_perm _ _
  · intro o
    show o ∈ (rstore.filter (fun o => o.userId == ruid)).mergeSort
      (fun a b => decide (b.date ≤ a.date)) ↔ _
    rw [List.Perm.mem_iff (List.mergeSort_perm _ _), List.mem_filter]
    simp
  · exact pairwise_dateDesc (fun o : RentEasy.Order => o.date) _

namespace SW

theorem putEntry_keeps {α : Type} (network : String → α) (u : String) :
    ∀ c : List (String × α), (∀ p ∈ c, p.2 = network p.1) →
      (∀ p ∈ c, p ∈ putEntry u (network u) c) ∧
      (∀ p ∈ putEntry u (network u) c, p.2 = network p.1)
  | [], _ => by
    constructor
    · intro p hp
      simp at hp
    · intro p hp
      simp [putEntry] at hp
      rw [hp]
  | e :: rest, hinv => by
    by_cases he : e.1 = u
    · rw [putEntry, if_pos he]
      constructor
      · intro p hp
        rcases List.mem_cons.mp hp with h | h
        · have h2 : p.2 = network u := by rw [hinv p hp, h, he]
          have h1 : p.1 = u := by rw [h, he]
          have hpe : p = (u, network u) := by
            rw [← h2, ← h1]
          exact hpe ▸ List.mem_cons_self _ _
        · exact List.mem_cons_of_mem _ h
      · intro p hp
        rcases List.mem_cons.mp hp with h | h
        · rw [h]
        · exact hinv p (List.mem_cons_of_mem _ h)
    · rw [putEntry, if_neg he]
      have ih := putEntry_keeps network u rest (fun p hp => hinv p (List.mem_cons_of_mem _ hp))
      constructor
      · intro p hp
        rcases List.mem_cons.mp hp with h | h
        · exact h ▸ List.mem_cons_self e _
        · exact List.mem_cons_of_mem _ (ih.1 p h)
      · intro p hp
        rcases List.mem_cons.mp hp with h | h
        · exact h ▸ hinv e (List.mem_cons_self e rest)
        · exact ih.2 p h

theorem foldl_put_keeps {α : Type} (network : String → α) :
    ∀ (us : List String) (c : List (String × α)), (∀ p ∈ c, p.2 = network p.1) →
      (∀ p ∈ c, p ∈ us.foldl (fun acc u => putEntry u (network u) acc) c) ∧
      (∀ p ∈ us.foldl (fun acc u => putEntry u (network u) acc) c, p.2 = network p.1)
  | [], c, hinv => ⟨fun _ hp => hp, hinv⟩
  | u :: us, c, hinv => by
    have h1 := putEntry_keeps network u c hinv
    have h2 := foldl_put_keeps network us (putEntry u (network u) c) h1.2
    exact ⟨fun p hp => h2.1 _ (h1.1 p hp), h2.2⟩

theorem addAll_keeps {α : Type} (network : String → α) (c : List (String × α))
    (hinv : ∀ p ∈ c, p.2 = network p.1) :
    (∀ p ∈ c, p ∈ addAll network c) ∧ (∀ p ∈ addAll network c, p.2 = network p.1) :=
  foldl_put_keeps network urlsToCache c hinv

theorem runSW_append {α : Type} (network : String → α) (events : List Event) (e : Event) :
    runSW network (events ++ [e]) = (step network (runSW network events) e).1 := by
  simp [runSW, List.foldl_append]

theorem runSW_inv {α : Type} (network : String → α) :
    ∀ (events : List Event) (c : List (String × α)), (∀ p ∈ c, p.2 = network p.1) →
      ∀ p ∈ events.foldl (fun s e => (step network s e).1) c, p.2 = network p.1
  | [], _, hinv => hinv
  | e :: es, c, hinv => by
    apply runSW_inv network es
    cases e with
    | install => exact (addAll_keeps network c hinv).2
    | fetchReq r => exact hinv

end SW

/-- C7: the service worker install handler populates the fresh named cache
with exactly the literal asset list; every fetch event is answered from the
cache when a match exists and from the network otherwise, without touching
the cache; and no event of a run ever removes or replaces a cached entry. -/
theorem sw_cache_first_install_exact (α : Type) (network : String → α)
    (cache : List (String × α)) (req : String) (r : α)
    (events : List SW.Event) (e : SW.Event) :
    SW.addAll network [] = SW.urlsToCache.map (fun u => (u, network u)) ∧
    (cache.lookup req = some r → SW.handleFetch cache network req = r) ∧
    (cache.lookup req = none → SW.handleFetch cache network req = network req) ∧
    (SW.step network cache (.fetchReq req)).1 = cache ∧
    (∀ p ∈ SW.runSW network events, p ∈ SW.runSW network (events ++ [e])) := by
  refine ⟨?_, ?_, ?_, rfl, ?_⟩
  · simp [SW.addAll, SW.urlsToCache, SW.putEntry]
  · intro h
    unfold SW.handleFetch
    rw [h]
  · intro h
    unfold SW.handleFetch
    rw [h]
  · intro p hp
    rw [SW.runSW_append]
    have hinv : ∀ q ∈ SW.runSW network events, q.2 = network q.1 :=
      SW.runSW_inv network events [] (by simp)
    cases e with
    | install => exact (SW.addAll_keeps network _ hinv).1 p hp
    | fetchReq s => exact hp

/-- C7 witness: a cached request is answered from the cache; an uncached one
goes to the network; a fetch step leaves the one-entry cache unchanged. -/
theorem sw_cache_first_install_exact_witness :
    SW.handleFetch [("/app.js", 5)] (fun _ => 0) "/app.js" = 5 ∧
    SW.handleFetch [("/app.js", 5)] (fun _ => 0) "/other" = 0 :=
  ⟨(sw_cache_first_install_exact ℕ (fun _ => 0) [("/app.js", 5)] "/app.js" 5 [] .install).2.1
      rfl,
   (sw_cache_first_install_exact ℕ (fun _ => 0) [("/app.js", 5)] "/other" 0 [] .install).2.2.1
      rfl⟩

namespace ChatPoint

theorem parseLoc_format (d1 d2 : JsStr.Decimal) (h1 : d1.wf = true) (h2 : d2.wf = true) :
    parseLoc (['L', 'a', 't', ':', ' '] ++ d1.render ++ [',', ' '] ++
        ['L', 'n', 'g', ':', ' '] ++ d2.render)
      = some (some d1.val, some d2.val) := by
  have hx := JsStr.render_ne_L d1 h1
  have hy := JsStr.render_ne_L d2 h2
  have hs1 := JsStr.split_lat_get1 d1.render d2.render hx hy
  have hs2 := JsStr.split_lng_get1 d1.render d2.render hx hy
  have hcomma : ((JsStr.split ',' [] (d1.render ++ [',', ' '] ++
      ['L', 'n', 'g', ':', ' '] ++ d2.render)).headD []) = d1.render := by
    have h := JsStr.split_comma_head d1.render
      (' ' :: (['L', 'n', 'g', ':', ' '] ++ d2.render)) (JsStr.render_ne_comma d1 h1)
    simpa [List.append_assoc] using h
  unfold parseLoc
  rw [hs1]
  dsimp only
  rw [hcomma, hs2]
  dsimp only
  rw [JsStr.parseFloat_render d1 h1, JsStr.parseFloat_render d2 h2]

theorem placeOrder_run (req : OrderReq) (store : List Order) (now : ℕ)
    (its : List (String × Int)) (loc : String) (lat lng : ℚ)
    (hits : req.items = some its) (hn : req.userName ≠ "") (hp : req.userPhone ≠ "")
    (hnei : its ≠ []) (hl1 : req.line1 ≠ "") (hloc : req.location = some loc)
    (hparse : parseLoc loc.data = some (some lat, some lng))
    (han : req.addrName ≠ "") (hap : req.addrPhone ≠ "") :
    placeOrder req store now = (.ok, store ++
      [{ userId := req.userId
         userName := req.userName
         userPhone := req.userPhone
         shop := req.shop.getD "Unknown Shop"
         items := its.map (fun p => { name := p.1, price := 100, quantity := p.2 })
         totalAmount := req.totalAmount
         deliveryCharge := req.deliveryCharge
         address :=
           { name := req.addrName
             phone := req.addrPhone
             line1 := req.line1
             line2 := req.line2
             lat := some lat
             lng := some lng }
         paymentMethod := req.paymentMethod.getD "cash"
         status := if req.paymentMethod = some "cash" then "pending" else "unpaid"
         date := now }]) := by
  unfold placeOrder
  rw [hits]
  dsimp only
  rw [if_neg (by simp [hn, hp, hnei, hl1, hloc]), hloc]
  dsimp only
  rw [hparse]
  dsimp only
  rw [if_neg (by simp [han, hap])]

/-- C2: a Chat Point order whose `address.location` is a string of the form
`"Lat: x, Lng: y"` with decimal numerals `x` and `y` is persisted with
`address.location.lat` equal to the numeric value of `x` and
`address.location.lng` equal to the numeric value of `y`. -/
theorem chatpoint_location_parsed (req : OrderReq) (store : List Order) (now : ℕ)
    (its : List (String × Int)) (loc : String) (d1 d2 : JsStr.Decimal)
    (hits : req.items = some its) (hn : req.userName ≠ "") (hp : req.userPhone ≠ "")
    (hnei : its ≠ []) (hl1 : req.line1 ≠ "") (hloc : req.location = some loc)
    (han : req.addrName ≠ "") (hap : req.addrPhone ≠ "")
    (hdata : loc.data = ['L', 'a', 't', ':', ' '] ++ d1.render ++ [',', ' '] ++
      ['L', 'n', 'g', ':', ' '] ++ d2.render)
    (h1 : d1.wf = true) (h2 : d2.wf = true) :
    ∃ o : Order, placeOrder req store now = (.ok, store ++ [o]) ∧
      o.address.lat = some d1.val ∧ o.address.lng = some d2.val := by
  refine ⟨_, placeOrder_run req store now its loc d1.val d2.val hits hn hp hnei hl1 hloc
    ?_ han hap, rfl, rfl⟩
  rw [hdata]
  exact parseLoc_format d1 d2 h1 h2

/-- C2 witness: `"Lat: 12.5, Lng: -3"` is persisted as latitude 25/2 and
longitude -3. -/
theorem chatpoint_location_parsed_witness :
    ∃ o : Order,
      placeOrder
        { userId := none, userName := "Asha", userPhone := "111", shop := none,
          items := some [("tea", 2)], totalAmount := 200, deliveryCharge := 20,
          addrName := "Asha", addrPhone := "111", line1 := "street 1", line2 := "",
          location := some "Lat: 12.5, Lng: -3", paymentMethod := some "cash" } [] 3
        = (.ok, [] ++ [o]) ∧
      o.address.lat = some (25 / 2 : ℚ) ∧ o.address.lng = some (-3 : ℚ) := by
  obtain ⟨o, hrun, hlat, hlng⟩ := chatpoint_location_parsed
    { userId := none, userName := "Asha", userPhone := "111", shop := none,
      items := some [("tea", 2)], totalAmount := 200, deliveryCharge := 20,
      addrName := "Asha", addrPhone := "111", line1 := "street 1", line2 := "",
      location := some "Lat: 12.5, Lng: -3", paymentMethod := some "cash" } [] 3
    [("tea", 2)] "Lat: 12.5, Lng: -3"
    { neg := false, intDs := ['1', '2'], fracDs := ['5'] }
    { neg := true, intDs := ['3'], fracDs := [] }
    rfl (by decide) (by decide) (by decide) (by decide) rfl (by decide) (by decide)
    (by decide) (by decide) (by decide)
  refine ⟨o, hrun, ?_, ?_⟩
  · rw [hlat]
    have h12 : JsStr.digitsVal ['1', '2'] 0 = 12 := by decide
    have h5 : JsStr.digitVal '5' = 5 := by decide
    simp [JsStr.Decimal.val, JsStr.fracVal, h12, h5]
    norm_num
  · rw [hlng]
    have h3 : JsStr.digitsVal ['3'] 0 = 3 := by decide
    simp [JsStr.Decimal.val, JsStr.fracVal, h3]

theorem lookup_eq_of_mem :
    ∀ {its : List (String × Int)}, (its.map Prod.fst).Nodup →
      ∀ {n : String} {q : Int}, (n, q) ∈ its → its.lookup n = some q
  | [], _, n, q, h => by simp at h
  | (k, v) :: rest, hnd, n, q, h => by
    rcases List.mem_cons.mp h with h | h
    · have hn : n = k := congrArg Prod.fst h
      have hq : q = v := congrArg Prod.snd h
      subst hn
      subst hq
      simp [List.lookup]
    · have hk : k ∉ rest.map Prod.fst := (List.nodup_cons.mp hnd).1
      have hnm : n ∈ rest.map Prod.fst := List.mem_map_of_mem Prod.fst h
      have hkn : (n == k) = false := by
        simp only [beq_eq_false_iff_ne]
        intro he
        exact hk (he ▸ hnm)
      simp only [List.lookup, hkn]
      exact lookup_eq_of_mem (List.nodup_cons.mp hnd).2 h

/-- C8: every line item of a persisted Chat Point order has price exactly
100, whatever the client sent, and quantity equal to the value stored under
its name in the submitted items mapping. -/
theorem chatpoint_items_price100 (req : OrderReq) (store : List Order) (now : ℕ)
    (its : List (String × Int)) (loc : String) (lat lng : ℚ)
    (hits : req.items = some its) (hn : req.userName ≠ "") (hp : req.userPhone ≠ "")
    (hnei : its ≠ []) (hl1 : req.line1 ≠ "") (hloc : req.location = some loc)
    (hparse : parseLoc loc.data = some (some lat, some lng))
    (han : req.addrName ≠ "") (hap : req.addrPhone ≠ "") :
    ∃ o : Order, placeOrder req store now = (.ok, store ++ [o]) ∧
      o.items = its.map (fun p => { name := p.1, price := 100, quantity := p.2 }) ∧
      (∀ it ∈ o.items, it.price = 100) ∧
      ((its.map Prod.fst).Nodup →
        ∀ it ∈ o.items, its.lookup it.name = some it.quantity) := by
  refine ⟨_, placeOrder_run req store now its loc lat lng hits hn hp hnei hl1 hloc
    hparse han hap, rfl, ?_, ?_⟩
  · intro it hit
    obtain ⟨p, _, hpe⟩ := List.mem_map.mp hit
    rw [← hpe]
  · intro hnd it hit
    obtain ⟨p, hp2, hpe⟩ := List.mem_map.mp hit
    rw [← hpe]
    exact lookup_eq_of_mem hnd hp2

/-- C8 witness: a cart claiming price 7 for "tea" is persisted with price 100
and the submitted quantity 2. -/
theorem chatpoint_items_price100_witness :
    ∃ o : Order,
      placeOrder
        { userId := none, userName := "Asha", userPhone := "111", shop := none,
          items := some [("tea", 2)], totalAmount := 200, deliveryCharge := 20,
          addrName := "Asha", addrPhone := "111", line1 := "street 1", line2 := "",
          location := some "Lat: 1, Lng: 2", paymentMethod := some "cash" } [] 3
        = (.ok, [] ++ [o]) ∧
      o.items = [{ name := "tea", price := 100, quantity := 2 }] := by
  have hparse : parseLoc ("Lat: 1, Lng: 2").data = some (some 1, some 2) := by
    have h := parseLoc_format ⟨false, ['1'], []⟩ ⟨false, ['2'], []⟩ (by decide) (by decide)
    have hdata : ("Lat: 1, Lng: 2").data
        = ['L', 'a', 't', ':', ' '] ++ (⟨false, ['1'], []⟩ : JsStr.Decimal).render ++
          [',', ' '] ++ ['L', 'n', 'g', ':', ' '] ++
          (⟨false, ['2'], []⟩ : JsStr.Decimal).render := by decide
    have hv1 : (⟨false, ['1'], []⟩ : JsStr.Decimal).val = 1 := by
      have h1 : JsStr.digitsVal ['1'] 0 = 1 := by decide
      simp [JsStr.Decimal.val, JsStr.fracVal, h1]
    have hv2 : (⟨false, ['2'], []⟩ : JsStr.Decimal).val = 2 := by
      have h2 : JsStr.digitsVal ['2'] 0 = 2 := by decide
      simp [JsStr.Decimal.val, JsStr.fracVal, h2]
    rw [hdata, h, hv1, hv2]
  obtain ⟨o, hrun, hitems, _, _⟩ := chatpoint_items_price100
    { userId := none, userName := "Asha", userPhone := "111", shop := none,
      items := some [("tea", 2)], totalAmount := 200, deliveryCharge := 20,
      addrName := "Asha", addrPhone := "111", line1 := "street 1", line2 := "",
      location := some "Lat: 1, Lng: 2", paymentMethod := some "cash" } [] 3
    [("tea", 2)] "Lat: 1, Lng: 2" 1 2
    rfl (by decide) (by decide) (by decide) (by decide) rfl hparse
    (by decide) (by decide)
  exact ⟨o, hrun, by rw [hitems]; rfl⟩

/-- C10: a Chat Point order request that passes field validation but whose
location string does not contain the `"Lat: "` marker (or the `"Lng: "`
marker) is answered with status 500, not 400, and the order collection is
left unchanged. -/
theorem chatpoint_bad_location_500 (req : OrderReq) (store : List Order) (now : ℕ)
    (its : List (String × Int)) (loc : String)
    (hits : req.items = some its) (hn : req.userName ≠ "") (hp : req.userPhone ≠ "")
    (hnei : its ≠ []) (hl1 : req.line1 ≠ "") (hloc : req.location = some loc)
    (hbad : JsStr.occursIn ['L', 'a', 't', ':', ' '] loc.data = false ∨
            JsStr.occursIn ['L', 'n', 'g', ':', ' '] loc.data = false) :
    placeOrder req store now = (.err 500 "Failed to save order", store) := by
  unfold placeOrder
  rw [hits]
  dsimp only
  rw [if_neg (by simp [hn, hp, hnei, hl1, hloc]), hloc]
  dsimp only
  rcases hbad with hb | hb
  · have hsp : JsStr.split 'L' ['a', 't', ':', ' '] loc.data = [loc.data] :=
      JsStr.split_of_not_occurs _ _ hb
    have hpl : parseLoc loc.data = none := by
      unfold parseLoc
      rw [hsp]
      rfl
    rw [hpl]
  · have hsp : JsStr.split 'L' ['n', 'g', ':', ' '] loc.data = [loc.data] :=
      JsStr.split_of_not_occurs _ _ hb
    cases hg : (JsStr.split 'L' ['a', 't', ':', ' '] loc.data).get? 1 with
    | none =>
      have hpl : parseLoc loc.data = none := by
        unfold parseLoc
        rw [hg]
      rw [hpl]
    | some s1 =>
      have hpl : parseLoc loc.data
          = some (JsStr.parseFloat ((JsStr.split ',' [] s1).headD []), none) := by
        unfold parseLoc
        rw [hg]
        dsimp only
        rw [hsp]
        rfl
      rw [hpl]
      dsimp only
      rw [if_pos (by simp)]

/-- C10 witness: the location string "nowhere" yields a 500 response and an
unchanged (empty) order store. -/
theorem chatpoint_bad_location_500_witness :
    placeOrder
      { userId := none, userName := "Asha", userPhone := "111", shop := none,
        items := some [("tea", 2)], totalAmount := 200, deliveryCharge := 20,
        addrName := "Asha", addrPhone := "111", line1 := "street 1", line2 := "",
        location := some "nowhere", paymentMethod := some "cash" } [] 3
      = (.err 500 "Failed to save order", []) :=
  chatpoint_bad_location_500
    { userId := none, userName := "Asha", userPhone := "111", shop := none,
      items := some [("tea", 2)], totalAmount := 200, deliveryCharge := 20,
      addrName := "Asha", addrPhone := "111", line1 := "street 1", line2 := "",
      location := some "nowhere", paymentMethod := some "cash" } [] 3
    [("tea", 2)] "nowhere" rfl (by decide) (by decide) (by decide) (by decide) rfl
    (Or.inl (by decide))

end ChatPoint
